import Mathlib

/-!
Verification development for the Service Status Dashboard repository.

Part 1 models the shared API client (apiFetch in scripts/api-client.js,
shipped inside the dashboard-hero source file): a sessionStorage cache
with TTL, an exponential back-off retry loop, and a stale-cache fallback.

Part 2 models the Cloudflare Pages FIRMS proxy (onRequestGet).

Modelling conventions:
- JavaScript exceptions are values of JsError; an operation that can
  reject or throw returns JsResult.  Pattern matching on the err case
  translates a catch block.
- sessionStorage is a list of key to raw-record pairs.  A raw record is
  either a well-formed serialized cache entry or a corrupt blob on which
  JSON.parse throws.
- The network is an environment function from the attempt index to the
  outcome of that fetch call; a timeout surfaces, as in the browser, as a
  rejection whose name is AbortError.
- apiFetch returns, besides the data/error/stale result, the final store,
  the list of back-off sleeps and the number of network attempts made, so
  that effects of the run are visible to the theorems.
-/

namespace ApiClient

/-- The decoded response body, opaque to the cache. -/
abbrev Payload := String

/-- A JavaScript error value: its name and message. -/
structure JsError where
  name : String
  message : String
deriving DecidableEq

/-- Outcome of a JavaScript operation that can throw or reject. -/
inductive JsResult (α : Type) where
  | ok (val : α)
  | err (e : JsError)
deriving DecidableEq

/-- The parts of a fetch Response the client reads: ok, status,
statusText, the cache-control header (none when absent), and the
outcomes of decoding the body as JSON or as text. -/
structure Response where
  ok : Bool
  status : Nat
  statusText : String
  cacheControl : Option String
  jsonBody : JsResult Payload
  textBody : JsResult Payload
deriving DecidableEq

/-- A stored cache record: data, cachedAt, ttl. -/
structure CacheEntry where
  data : Payload
  cachedAt : Nat
  ttl : Nat
deriving DecidableEq

/-- A raw sessionStorage record: either a well-formed serialized entry,
or a corrupt string on which JSON.parse throws. -/
inductive RawRecord where
  | entry (e : CacheEntry)
  | corrupt (raw : String)
deriving DecidableEq

/-- The sessionStorage key space visible to the client. -/
abbrev Store := List (String × RawRecord)

/-- sessionStorage.getItem. -/
def lookupStore : Store → String → Option RawRecord
  | [], _ => none
  | (k, v) :: rest, key => if k = key then some v else lookupStore rest key

/-- sessionStorage.setItem: overwrites the entry under the key. -/
def setStore : Store → String → RawRecord → Store
  | [], key, v => [(key, v)]
  | (k, w) :: rest, key, v =>
      if k = key then (key, v) :: rest else (k, w) :: setStore rest key v

/-- The cache key of a url: the literal cache name space plus the key. -/
def cacheKeyOf (key : String) : String := "dashboard_cache_" ++ key

/-- readCache: getItem, null check, JSON.parse inside try/catch.  A
missing record and a corrupt record both give null. -/
def readCache (store : Store) (key : String) : Option CacheEntry :=
  match lookupStore store (cacheKeyOf key) with
  | none => none
  | some (RawRecord.entry e) => some e
  | some (RawRecord.corrupt _) => none

/-- writeCache: setItem of the serialized entry inside try/catch; when
the write throws (writeOk = false) the failure is swallowed and the
store is left as it was. -/
def writeCache (store : Store) (key : String) (data : Payload) (ttlMs : Nat)
    (now : Nat) (writeOk : Bool) : Store :=
  if writeOk then setStore store (cacheKeyOf key) (RawRecord.entry ⟨data, now, ttlMs⟩)
  else store

/-- Longest leading run of digits. -/
def takeDigits : List Char → List Char
  | [] => []
  | c :: cs => if c.isDigit then c :: takeDigits cs else []

/-- Decimal value of a digit list. -/
def digitsToNat (ds : List Char) : Nat :=
  ds.foldl (fun n c => n * 10 + (c.toNat - 48)) 0

/-- The regex search for max-age= followed by at least one digit: the
first position where the literal is followed by a digit wins, and the
maximal digit run there is captured. -/
def findMaxAgeSeconds : List Char → Option Nat
  | [] => none
  | c :: cs =>
      if (c :: cs).take 8 = "max-age=".toList then
        match takeDigits ((c :: cs).drop 8) with
        | [] => findMaxAgeSeconds cs
        | ds => some (digitsToNat ds)
      else findMaxAgeSeconds cs

/-- parseCacheControlMaxAge: read the cache-control header (empty string
when absent), find the max-age directive, convert seconds to ms. -/
def parseCacheControlMaxAge (r : Response) : Option Nat :=
  (findMaxAgeSeconds (r.cacheControl.getD "").toList).map (· * 1000)

/-- The recognized response formats. -/
inductive ParseMode where
  | json
  | text
  | csv
deriving DecidableEq

/-- The options record of apiFetch (timeoutMs is carried for fidelity;
timeouts themselves surface as AbortError rejections from the net). -/
structure Options where
  ttlMs : Nat
  timeoutMs : Nat
  maxRetries : Nat
  parse : ParseMode
deriving DecidableEq

/-- The data/error/stale contract returned to callers. -/
structure FetchResult where
  data : Option Payload
  error : Option String
  stale : Bool
deriving DecidableEq

/-- The environment of one apiFetch call: the outcome of the fetch at
each attempt index, the clock at each attempt, and whether the single
possible cache write succeeds. -/
structure Env where
  net : Nat → JsResult Response
  timeAt : Nat → Nat
  writeOk : Bool

/-- A full run: the returned result plus the observable effects. -/
structure RunOut where
  res : FetchResult
  store : Store
  sleeps : List Nat
  attempts : Nat
deriving DecidableEq

/-- The message taken from a caught error: Request timed out for an
AbortError, the message of the error otherwise. -/
def errMsgOf (e : JsError) : String :=
  if e.name = "AbortError" then "Request timed out" else e.message

/-- Decoding the body per the parse option. -/
def decodeBody (parse : ParseMode) (r : Response) : JsResult Payload :=
  match parse with
  | ParseMode.json => r.jsonBody
  | ParseMode.text => r.textBody
  | ParseMode.csv => r.textBody

/-- The nullish coalescing of the server ttl with the default ttl. -/
def nullishTtl (serverTtl : Option Nat) (ttlMs : Nat) : Nat :=
  match serverTtl with
  | some t => t
  | none => ttlMs

/-- Outcome of the body of one attempt. -/
inductive StepResult where
  | succeeded (data : Payload) (resp : Response)
  | failed (msg : String)
deriving DecidableEq

/-- The try block of one attempt together with its catch handler: a
rejected fetch or a throwing body decode lands in the catch and becomes
a failed step carrying errMsgOf; a response with ok false becomes a
failed step carrying the HTTP status message. -/
def attemptStep (parse : ParseMode) (out : JsResult Response) : StepResult :=
  match out with
  | JsResult.err e => StepResult.failed (errMsgOf e)
  | JsResult.ok r =>
      if r.ok then
        match decodeBody parse r with
        | JsResult.err e => StepResult.failed (errMsgOf e)
        | JsResult.ok d => StepResult.succeeded d r
      else StepResult.failed ("HTTP " ++ toString r.status ++ " " ++ r.statusText)

/-- The message of a failed step. -/
def failedMsgOf : StepResult → Option String
  | StepResult.failed m => some m
  | StepResult.succeeded _ _ => none

/-- The recursive attempt function.  The fuel argument is the remaining
counter of the source shifted by one, so fuel 0 is the remaining below
zero base case: return stale data when the entry read at the start of
the call exists, the hard failure otherwise.  At fuel k + 1 the
remaining counter is k and the attempt index is maxRetries - k; on
failure, when remaining is positive, a back-off sleep of
500 * 2 ^ (maxRetries - remaining) ms is recorded before recursing. -/
def attempt (env : Env) (url : String) (o : Options) (cached : Option CacheEntry)
    (store : Store) : Nat → Option String → RunOut
  | 0, lastError =>
      match cached with
      | some c => ⟨⟨some c.data, lastError, true⟩, store, [], 0⟩
      | none => ⟨⟨none, lastError, false⟩, store, [], 0⟩
  | k + 1, _lastError =>
      match attemptStep o.parse (env.net (o.maxRetries - k)) with
      | StepResult.succeeded d r =>
          let effTtl := nullishTtl (parseCacheControlMaxAge r) o.ttlMs
          ⟨⟨some d, none, false⟩,
           writeCache store url d effTtl (env.timeAt (o.maxRetries - k)) env.writeOk,
           [], 1⟩
      | StepResult.failed msg =>
          let rest := attempt env url o cached store k (some msg)
          let pre := if k > 0 then [500 * 2 ^ (o.maxRetries - k)] else []
          ⟨rest.res, rest.store, pre ++ rest.sleeps, rest.attempts + 1⟩

/-- apiFetch: read the cache under the url, return a fresh entry
immediately, otherwise run the attempt loop with remaining = maxRetries
and a null last error. -/
def apiFetch (env : Env) (store : Store) (url : String) (o : Options) (now : Nat) :
    RunOut :=
  match readCache store url with
  | some c =>
      if (now : Int) - (c.cachedAt : Int) < (c.ttl : Int) then
        ⟨⟨some c.data, none, false⟩, store, [], 0⟩
      else attempt env url o (some c) store (o.maxRetries + 1) none
  | none => attempt env url o none store (o.maxRetries + 1) none

/-- The call does not short-circuit on a fresh cache entry. -/
def cacheMiss (store : Store) (url : String) (now : Nat) : Prop :=
  ∀ c, readCache store url = some c → ¬((now : Int) - (c.cachedAt : Int) < (c.ttl : Int))

/-- Attempt at the given index fails: rejection, bad status, or body
decode failure. -/
def failsAt (o : Options) (env : Env) (i : Nat) : Prop :=
  ∃ m, attemptStep o.parse (env.net i) = StepResult.failed m

/-- Exactly one of the three result shapes holds: data present and not
stale, data present and stale, data absent. -/
def exactlyOneShape (r : FetchResult) : Prop :=
  (r.data.isSome && !r.stale).toNat + (r.data.isSome && r.stale).toNat
    + r.data.isNone.toNat = 1

end ApiClient

namespace Firms

open ApiClient (JsResult JsError)

/-- The parts of the upstream FIRMS response the proxy reads: ok, the
status, and the outcome of reading the body as text. -/
structure UpstreamResp where
  ok : Bool
  status : Nat
  textBody : ApiClient.JsResult String
deriving DecidableEq

/-- The environment of one proxy request: the configured secret (none
when unset) and the outcome of the upstream fetch per url. -/
structure ProxyEnv where
  firmsApiKey : Option String
  upstream : String → ApiClient.JsResult UpstreamResp

/-- The body of the proxy response: a structured error object or the
decoded array of CSV records. -/
inductive ProxyBody where
  | errorBody (msg : String)
  | dataBody (rows : List (List (String × String)))
deriving DecidableEq

/-- The proxy response: status code and body. -/
structure ProxyResponse where
  status : Nat
  body : ProxyBody
deriving DecidableEq

/-- parseCsv: split into lines, fewer than two lines give the empty
array, the first line gives the headers, every further line becomes a
record pairing each header with the trimmed value at its column, the
empty string when the column is missing. -/
def parseCsv (csv : String) : List (List (String × String)) :=
  match csv.trim.splitOn "\n" with
  | [] => []
  | [_] => []
  | headerLine :: rest =>
      let headers := (headerLine.splitOn ",").map String.trim
      rest.map fun line =>
        let values := line.splitOn ","
        headers.enum.map fun hi =>
          (hi.2, (((values.get? hi.1).map String.trim).getD ""))

/-- JavaScript: value || dflt on a nullable string. -/
def jsOr (v : Option String) (dflt : String) : String :=
  match v with
  | none => dflt
  | some s => if s = "" then dflt else s

/-- The leading-whitespace skip of parseInt. -/
def skipWs : List Char → List Char
  | [] => []
  | c :: cs => if c.isWhitespace then skipWs cs else c :: cs

/-- JavaScript parseInt with radix 10: skip leading whitespace, an
optional sign, then the longest digit run; NaN (none) when no digit. -/
def jsParseInt (s : String) : Option Int :=
  match skipWs s.toList with
  | '+' :: rest =>
      (match ApiClient.takeDigits rest with
       | [] => none
       | ds => some ((ApiClient.digitsToNat ds : Int)))
  | '-' :: rest =>
      (match ApiClient.takeDigits rest with
       | [] => none
       | ds => some (-(ApiClient.digitsToNat ds : Int)))
  | cs =>
      (match ApiClient.takeDigits cs with
       | [] => none
       | ds => some ((ApiClient.digitsToNat ds : Int)))

/-- The validated day range: parseInt of the days parameter (defaulted
to the string 1), with NaN and 0 both replaced by 1 through the
falsy-or, clamped into 1..10. -/
def daysSegment (daysParam : Option String) : Int :=
  let days := jsOr daysParam "1"
  let p : Int :=
    match jsParseInt days with
    | none => 1
    | some n => if n = 0 then 1 else n
  min 10 (max 1 p)

/-- The upstream base url. -/
def firmsBase : String := "https://firms.modaps.eosdis.nasa.gov/api/area/csv"

/-- The upstream FIRMS url: base/key/source/area/dayRange. -/
def buildFirmsUrl (apiKey source bbox : String) (daysParam : Option String) :
    String :=
  firmsBase ++ "/" ++ apiKey ++ "/" ++ source ++ "/" ++ bbox ++ "/"
    ++ toString (daysSegment daysParam)

/-- onRequestGet: 503 when the secret is missing or empty, then the
upstream fetch inside try/catch; a rejected fetch or a throwing body
read gives 500, a non-ok upstream response is relayed with its own
status, and otherwise 200 with the decoded CSV array. -/
def onRequestGet (env : ProxyEnv) (daysP sourceP bboxP : Option String) :
    ProxyResponse :=
  match env.firmsApiKey with
  | none =>
      ⟨503, ProxyBody.errorBody "FIRMS_API_KEY environment variable is not configured."⟩
  | some apiKey =>
      if apiKey = "" then
        ⟨503, ProxyBody.errorBody "FIRMS_API_KEY environment variable is not configured."⟩
      else
        let source := jsOr sourceP "VIIRS_SNPP_NRT"
        let bbox := jsOr bboxP "world"
        match env.upstream (buildFirmsUrl apiKey source bbox daysP) with
        | JsResult.err e => ⟨500, ProxyBody.errorBody ("Proxy error: " ++ e.message)⟩
        | JsResult.ok up =>
            if up.ok then
              match up.textBody with
              | JsResult.err e =>
                  ⟨500, ProxyBody.errorBody ("Proxy error: " ++ e.message)⟩
              | JsResult.ok csv => ⟨200, ProxyBody.dataBody (parseCsv csv)⟩
            else
              ⟨up.status,
               ProxyBody.errorBody ("FIRMS upstream error: HTTP " ++ toString up.status)⟩

end Firms

namespace ApiClient

/-- The fuel-zero call only packages the result: store, sleeps and
attempt count are untouched. -/
theorem attempt_zero (env : Env) (url : String) (o : Options)
    (cached : Option CacheEntry) (store : Store) (last : Option String) :
    attempt env url o cached store 0 last =
      ⟨(attempt env url o cached store 0 last).res, store, [], 0⟩ := by
  cases cached <;> rfl

/-- When every attempt that the fuel still allows fails, the loop walks
through all of them: the result is the fuel-zero fallback seeded with
the message of the final attempt, the store is untouched, the sleeps
are the exponential schedule, and every unit of fuel is spent. -/
theorem attempt_allFail (env : Env) (url : String) (o : Options)
    (cached : Option CacheEntry) (store : Store) :
    ∀ k last, k ≤ o.maxRetries + 1 →
      (∀ i, o.maxRetries + 1 - k ≤ i → i ≤ o.maxRetries → failsAt o env i) →
      attempt env url o cached store k last =
        ⟨(attempt env url o cached store 0
            (if k = 0 then last
             else failedMsgOf (attemptStep o.parse (env.net o.maxRetries)))).res,
         store,
         (List.range' (o.maxRetries + 1 - k) (k - 1)).map (fun e => 500 * 2 ^ e),
         k⟩ := by
  intro k
  induction k with
  | zero =>
      intro last _ _
      simpa using attempt_zero env url o cached store last
  | succ k ih =>
      intro last hk hf
      obtain ⟨m, hm⟩ := hf (o.maxRetries - k) (by omega) (by omega)
      simp only [attempt]
      simp only [hm]
      rw [ih (some m) (by omega) (fun i h1 h2 => hf i (by omega) h2)]
      rcases Nat.eq_zero_or_pos k with hk0 | hkpos
      · subst hk0
        have hmr : o.maxRetries - 0 = o.maxRetries := by omega
        rw [hmr] at hm
        simp [hm, failedMsgOf]
        cases cached <;> rfl
      · obtain ⟨k', rfl⟩ : ∃ k', k = k' + 1 := ⟨k - 1, by omega⟩
        have e2 : o.maxRetries - (k' + 1) = o.maxRetries + 1 - (k' + 1 + 1) := by omega
        have e3 : o.maxRetries + 1 - (k' + 1 + 1) + 1 = o.maxRetries + 1 - (k' + 1) := by
          omega
        simp only [Nat.add_sub_cancel, e2, List.range'_succ, List.map_cons, e3]
        cases cached <;> simp [attempt]

/-- On a fresh cache hit apiFetch returns the entry at once: no attempt,
no sleep, no store change. -/
theorem apiFetch_freshHit (env : Env) (store : Store) (url : String) (o : Options)
    (now : Nat) (c : CacheEntry) (hc : readCache store url = some c)
    (hfresh : (now : Int) - (c.cachedAt : Int) < (c.ttl : Int)) :
    apiFetch env store url o now = ⟨⟨some c.data, none, false⟩, store, [], 0⟩ := by
  unfold apiFetch
  rw [hc]
  simp [hfresh]

/-- Without a fresh cache entry, apiFetch is the attempt loop started
with full fuel and a null last error. -/
theorem apiFetch_miss (env : Env) (store : Store) (url : String) (o : Options)
    (now : Nat) (hmiss : cacheMiss store url now) :
    apiFetch env store url o now =
      attempt env url o (readCache store url) store (o.maxRetries + 1) none := by
  unfold apiFetch
  cases hc : readCache store url with
  | none => rfl
  | some c => simp [if_neg (hmiss c hc)]

/-- apiFetch under total failure: the result in both cache situations. -/
theorem apiFetch_allFail (env : Env) (store : Store) (url : String) (o : Options)
    (now : Nat) (hmiss : cacheMiss store url now)
    (hfail : ∀ i, i ≤ o.maxRetries → failsAt o env i) :
    (∀ c, readCache store url = some c →
        (apiFetch env store url o now).res =
          ⟨some c.data, failedMsgOf (attemptStep o.parse (env.net o.maxRetries)), true⟩)
    ∧ (readCache store url = none →
        (apiFetch env store url o now).res =
          ⟨none, failedMsgOf (attemptStep o.parse (env.net o.maxRetries)), false⟩) := by
  have hrw := apiFetch_miss env store url o now hmiss
  have hall := attempt_allFail env url o (readCache store url) store
    (o.maxRetries + 1) none (le_refl _) (fun i _ h2 => hfail i h2)
  constructor
  · intro c hc
    rw [hrw, hall, hc]
    simp [attempt]
  · intro hc
    rw [hrw, hall, hc]
    simp [attempt]

/-- The sleeps of any run are the exponential schedule for the attempts
actually made: with fuel k the first attempt index is maxRetries+1-k
and a run of n attempts sleeps after each but the last. -/
theorem attempt_sleeps_shape (env : Env) (url : String) (o : Options)
    (cached : Option CacheEntry) (store : Store) :
    ∀ k last, k ≤ o.maxRetries + 1 →
      (attempt env url o cached store k last).sleeps =
        (List.range' (o.maxRetries + 1 - k)
            ((attempt env url o cached store k last).attempts - 1)).map
          (fun e => 500 * 2 ^ e)
      ∧ (attempt env url o cached store k last).attempts ≤ k
      ∧ (1 ≤ k → 1 ≤ (attempt env url o cached store k last).attempts) := by
  intro k
  induction k with
  | zero =>
      intro last _
      rw [attempt_zero]
      simp
  | succ k ih =>
      intro last hk
      simp only [attempt]
      cases hstep : attemptStep o.parse (env.net (o.maxRetries - k)) with
      | succeeded d r => simp
      | failed m =>
          dsimp only
          obtain ⟨ih1, ih2, ih3⟩ := ih (some m) (by omega)
          rcases Nat.eq_zero_or_pos k with hk0 | hkpos
          · subst hk0
            rw [attempt_zero] at ih1 ih2 ⊢
            simp
          · have ha1 : 1 ≤ (attempt env url o cached store k (some m)).attempts :=
              ih3 hkpos
            obtain ⟨a', ha'⟩ : ∃ a',
                (attempt env url o cached store k (some m)).attempts = a' + 1 :=
              ⟨_, (Nat.succ_pred_eq_of_pos ha1).symm⟩
            have e2 : o.maxRetries - k = o.maxRetries + 1 - (k + 1) := by omega
            have e3 : o.maxRetries + 1 - (k + 1) + 1 = o.maxRetries + 1 - k := by omega
            refine ⟨?_, by omega, fun _ => by omega⟩
            rw [ih1, ha']
            simp only [Nat.add_sub_cancel, e2, List.range'_succ, List.map_cons, e3,
              if_pos hkpos]
            simp

/-- A failing run that reaches the fallback keeps the last message: the
error of the result is never null when the loop starts with fuel or a
non-null seed message and returns no data. -/
theorem attempt_error_of_none (env : Env) (url : String) (o : Options)
    (cached : Option CacheEntry) (store : Store) :
    ∀ k last, (last ≠ none ∨ 1 ≤ k) →
      (attempt env url o cached store k last).res.data = none →
      (attempt env url o cached store k last).res.error ≠ none := by
  intro k
  induction k with
  | zero =>
      intro last hl
      cases cached with
      | some c => intro h; simp [attempt] at h
      | none =>
          intro _
          have hlast : last ≠ none := by
            rcases hl with h | h
            · exact h
            · omega
          simpa [attempt] using hlast
  | succ k ih =>
      intro last _
      simp only [attempt]
      cases hstep : attemptStep o.parse (env.net (o.maxRetries - k)) with
      | succeeded d r => intro h; simp at h
      | failed m =>
          intro h
          exact ih (some m) (Or.inl (by simp)) h

/-- The three result shapes are mutually exclusive and exhaustive for
any data/error/stale record. -/
theorem shape_tauto (r : FetchResult) : exactlyOneShape r := by
  obtain ⟨d, e, s⟩ := r
  cases d <;> cases s <;> simp [exactlyOneShape]

/-- Skipping a failing prefix: when every attempt before index j fails
and attempt j succeeds with decoded data d from response r, any call
with enough fuel to reach j ends in the success of attempt j. -/
theorem attempt_skipToSuccess (env : Env) (url : String) (o : Options)
    (cached : Option CacheEntry) (store : Store) (j : Nat)
    (hj : j ≤ o.maxRetries) (hpre : ∀ i, i < j → failsAt o env i)
    (d : Payload) (r : Response)
    (hs : attemptStep o.parse (env.net j) = StepResult.succeeded d r) :
    ∀ k last, k ≤ o.maxRetries + 1 → o.maxRetries + 1 - k ≤ j →
      (attempt env url o cached store k last).res = ⟨some d, none, false⟩
      ∧ (attempt env url o cached store k last).store =
          writeCache store url d (nullishTtl (parseCacheControlMaxAge r) o.ttlMs)
            (env.timeAt j) env.writeOk := by
  intro k
  induction k with
  | zero =>
      intro last _ h2
      exfalso
      omega
  | succ k ih =>
      intro last hk hkj
      simp only [attempt]
      by_cases hij : o.maxRetries - k = j
      · rw [hij, hs]
        exact ⟨rfl, rfl⟩
      · have hlt : o.maxRetries - k < j := by omega
        obtain ⟨m, hm⟩ := hpre _ hlt
        simp only [hm]
        exact ih (some m) (by omega) (by omega)

/-- Skipping a failing prefix to a failing attempt: when every attempt
before index j fails and attempt j itself fails with message m, any
call with enough fuel to reach j has the result and the store of the
loop continued past j, with m as the last error and the remaining
budget decremented past j. -/
theorem attempt_skipToFail (env : Env) (url : String) (o : Options)
    (cached : Option CacheEntry) (store : Store) (j : Nat)
    (hj : j ≤ o.maxRetries) (hpre : ∀ i, i < j → failsAt o env i)
    (m : String) (hm : attemptStep o.parse (env.net j) = StepResult.failed m) :
    ∀ k last, k ≤ o.maxRetries + 1 → o.maxRetries + 1 - k ≤ j →
      (attempt env url o cached store k last).res =
        (attempt env url o cached store (o.maxRetries - j) (some m)).res
      ∧ (attempt env url o cached store k last).store =
        (attempt env url o cached store (o.maxRetries - j) (some m)).store := by
  intro k
  induction k with
  | zero =>
      intro last _ h2
      exfalso
      omega
  | succ k ih =>
      intro last hk hkj
      simp only [attempt]
      by_cases hij : o.maxRetries - k = j
      · rw [hij]
        simp only [hm]
        have hkj' : k = o.maxRetries - j := by omega
        rw [hkj']
        exact ⟨rfl, rfl⟩
      · have hlt : o.maxRetries - k < j := by omega
        obtain ⟨m', hm'⟩ := hpre _ hlt
        simp only [hm']
        exact ih (some m') (by omega) (by omega)

/-- Claim C1: for every identity and options with maxRetries at least
zero, when no fresh cache entry short-circuits the call and every one
of the maxRetries plus one attempts fails, apiFetch returns the payload
of the cache entry for the identity with stale true and the message of
the final failure as the error when such an entry exists, and absent
data, stale false and that same message otherwise. -/
theorem c1_total_failure_fallback (env : Env) (store : Store) (url : String)
    (o : Options) (now : Nat) (hmiss : cacheMiss store url now)
    (hfail : ∀ i, i ≤ o.maxRetries → failsAt o env i) :
    (∀ c, readCache store url = some c →
        (apiFetch env store url o now).res =
          ⟨some c.data, failedMsgOf (attemptStep o.parse (env.net o.maxRetries)), true⟩)
    ∧ (readCache store url = none →
        (apiFetch env store url o now).res =
          ⟨none, failedMsgOf (attemptStep o.parse (env.net o.maxRetries)), false⟩) :=
  apiFetch_allFail env store url o now hmiss hfail

theorem c1_total_failure_fallback_witness :
    (apiFetch ⟨fun _ => JsResult.err ⟨"TypeError", "boom"⟩, fun _ => 0, true⟩ [] "u"
        ⟨300000, 10000, 1, ParseMode.json⟩ 0).res = ⟨none, some "boom", false⟩ :=
  (c1_total_failure_fallback
      ⟨fun _ => JsResult.err ⟨"TypeError", "boom"⟩, fun _ => 0, true⟩ [] "u"
      ⟨300000, 10000, 1, ParseMode.json⟩ 0 (fun _ hc => nomatch hc)
      (fun _ _ => ⟨"boom", rfl⟩)).2 rfl

/-- Claim C2: whenever the cache holds an entry for the identity that is
fresh at call time, apiFetch returns the cached payload with no error
and stale false immediately, making no network attempt (the attempt
count of the run is zero and the store and sleep trace are empty). -/
theorem c2_fresh_cache_short_circuit (env : Env) (store : Store) (url : String)
    (o : Options) (now : Nat) (c : CacheEntry) (hc : readCache store url = some c)
    (hfresh : (now : Int) - (c.cachedAt : Int) < (c.ttl : Int)) :
    apiFetch env store url o now = ⟨⟨some c.data, none, false⟩, store, [], 0⟩ :=
  apiFetch_freshHit env store url o now c hc hfresh

theorem c2_fresh_cache_short_circuit_witness :
    apiFetch ⟨fun _ => JsResult.err ⟨"TypeError", "boom"⟩, fun _ => 0, true⟩
        [("dashboard_cache_u", RawRecord.entry ⟨"p", 0, 1000⟩)] "u"
        ⟨300000, 10000, 2, ParseMode.json⟩ 10 =
      ⟨⟨some "p", none, false⟩,
       [("dashboard_cache_u", RawRecord.entry ⟨"p", 0, 1000⟩)], [], 0⟩ :=
  c2_fresh_cache_short_circuit _ _ _ _ _ ⟨"p", 0, 1000⟩ rfl (by decide)

/-- Claim C3: the back-off delays of any run form the schedule
500 * 2 ^ i for the attempt indices walked through, hence are
non-decreasing, and no wait follows the final failure; in particular
under total failure exactly maxRetries + 1 attempts occur with delays
500 * 2 ^ 0 .. 500 * 2 ^ (maxRetries - 1) between them. -/
theorem c3_backoff_schedule (env : Env) (store : Store) (url : String) (o : Options)
    (now : Nat) (hmiss : cacheMiss store url now) :
    ((apiFetch env store url o now).sleeps =
        (List.range ((apiFetch env store url o now).attempts - 1)).map
          (fun i => 500 * 2 ^ i)
      ∧ (apiFetch env store url o now).sleeps.Pairwise (· ≤ ·))
    ∧ ((∀ i, i ≤ o.maxRetries → failsAt o env i) →
        (apiFetch env store url o now).attempts = o.maxRetries + 1
        ∧ (apiFetch env store url o now).sleeps =
            (List.range o.maxRetries).map (fun i => 500 * 2 ^ i)) := by
  have hrw := apiFetch_miss env store url o now hmiss
  have hshape := attempt_sleeps_shape env url o (readCache store url) store
    (o.maxRetries + 1) none (le_refl _)
  have hmono : ∀ a b : Nat, a < b → 500 * 2 ^ a ≤ 500 * 2 ^ b := fun a b h =>
    Nat.mul_le_mul_left 500 (Nat.pow_le_pow_right (by decide) (Nat.le_of_lt h))
  constructor
  · constructor
    · rw [hrw, hshape.1, Nat.sub_self, ← List.range_eq_range']
    · rw [hrw, hshape.1]
      exact List.Pairwise.map _ hmono (List.pairwise_lt_range' _ _)
  · intro hfail
    have hall := attempt_allFail env url o (readCache store url) store
      (o.maxRetries + 1) none (le_refl _) (fun i _ h2 => hfail i h2)
    rw [hrw, hall]
    refine ⟨rfl, ?_⟩
    simp [Nat.sub_self, ← List.range_eq_range']

theorem c3_backoff_schedule_witness :
    (apiFetch ⟨fun _ => JsResult.err ⟨"AbortError", "aborted"⟩, fun _ => 0, true⟩ [] "u"
        ⟨300000, 10000, 2, ParseMode.json⟩ 0).attempts = 3
    ∧ (apiFetch ⟨fun _ => JsResult.err ⟨"AbortError", "aborted"⟩, fun _ => 0, true⟩ [] "u"
        ⟨300000, 10000, 2, ParseMode.json⟩ 0).sleeps = [500, 1000] := by
  have h := (c3_backoff_schedule
      ⟨fun _ => JsResult.err ⟨"AbortError", "aborted"⟩, fun _ => 0, true⟩ [] "u"
      ⟨300000, 10000, 2, ParseMode.json⟩ 0
      (fun _ hc => nomatch hc)).2 (fun _ _ => ⟨"Request timed out", rfl⟩)
  exact ⟨h.1, h.2.trans (by decide)⟩

/-- Claim C4: on a successful attempt the TTL written to the cache with
the payload is the max-age directive of the response converted to
milliseconds when present, and the ttlMs option otherwise. -/
theorem c4_server_ttl_preferred (env : Env) (store : Store) (url : String)
    (o : Options) (now : Nat) (hmiss : cacheMiss store url now) (j : Nat)
    (hj : j ≤ o.maxRetries) (hpre : ∀ i, i < j → failsAt o env i)
    (d : Payload) (r : Response)
    (hs : attemptStep o.parse (env.net j) = StepResult.succeeded d r) :
    (apiFetch env store url o now).res = ⟨some d, none, false⟩
    ∧ (apiFetch env store url o now).store =
        writeCache store url d (nullishTtl (parseCacheControlMaxAge r) o.ttlMs)
          (env.timeAt j) env.writeOk := by
  rw [apiFetch_miss env store url o now hmiss]
  exact attempt_skipToSuccess env url o (readCache store url) store j hj hpre d r hs
    (o.maxRetries + 1) none (le_refl _) (by omega)

theorem c4_server_ttl_preferred_witness :
    (apiFetch ⟨fun _ => JsResult.ok ⟨true, 200, "OK", some "public, max-age=900",
        JsResult.ok "payload", JsResult.ok "body"⟩, fun _ => 42, true⟩ [] "u"
        ⟨300000, 10000, 2, ParseMode.json⟩ 0).store =
      [("dashboard_cache_u", RawRecord.entry ⟨"payload", 42, 900000⟩)] := by
  have h := (c4_server_ttl_preferred
      ⟨fun _ => JsResult.ok ⟨true, 200, "OK", some "public, max-age=900",
        JsResult.ok "payload", JsResult.ok "body"⟩, fun _ => 42, true⟩ [] "u"
      ⟨300000, 10000, 2, ParseMode.json⟩ 0
      (fun _ hc => nomatch hc) 0 (by decide) (fun i hi => absurd hi (Nat.not_lt_zero i))
      "payload"
      ⟨true, 200, "OK", some "public, max-age=900", JsResult.ok "payload",
        JsResult.ok "body"⟩ (by decide)).2
  exact h.trans (by decide)

/-- Claim C5 counterexample: an attempt with a success status whose body
fails to decode is treated as a failure, but its message is the message
of the decode error itself, not the literal string Failed to parse
response, which appears nowhere in apiFetch. -/
theorem c5_counterexample :
    (apiFetch ⟨fun _ => JsResult.ok ⟨true, 200, "OK", none,
        JsResult.err ⟨"SyntaxError", "Unexpected end of JSON input"⟩, JsResult.ok ""⟩,
        fun _ => 0, true⟩ [] "u" ⟨300000, 10000, 0, ParseMode.json⟩ 0).res =
      ⟨none, some "Unexpected end of JSON input", false⟩
    ∧ "Unexpected end of JSON input" ≠ "Failed to parse response" :=
  ⟨rfl, by decide⟩

/-- Claim C5 (amended): on every attempt whose network call completes
with a success status but whose body fails to decode under the
configured response format, that attempt is treated as a failure, not a
crash, with the message the catch block derives from the decode error
itself, and it contributes to retry and back-off like any other
failure: the step of such an attempt is the generic failed step with
that message, the loop at that attempt records the standard back-off
sleep exactly when attempts remain and continues seeded with that
message and a decremented budget, and the result and final store of
the whole call are those of that continuation. -/
theorem c5_decode_failure_retries (env : Env) (store : Store) (url : String)
    (o : Options) (now : Nat) (j : Nat) (r : Response) (e : JsError)
    (hmiss : cacheMiss store url now) (hj : j ≤ o.maxRetries)
    (hpre : ∀ i, i < j → failsAt o env i)
    (hnet : env.net j = JsResult.ok r) (hok : r.ok = true)
    (hdec : decodeBody o.parse r = JsResult.err e) :
    attemptStep o.parse (env.net j) = StepResult.failed (errMsgOf e)
    ∧ (∀ last,
        attempt env url o (readCache store url) store (o.maxRetries - j + 1) last =
          ⟨(attempt env url o (readCache store url) store (o.maxRetries - j)
              (some (errMsgOf e))).res,
           (attempt env url o (readCache store url) store (o.maxRetries - j)
              (some (errMsgOf e))).store,
           (if o.maxRetries - j > 0 then [500 * 2 ^ j] else [])
             ++ (attempt env url o (readCache store url) store (o.maxRetries - j)
                  (some (errMsgOf e))).sleeps,
           (attempt env url o (readCache store url) store (o.maxRetries - j)
              (some (errMsgOf e))).attempts + 1⟩)
    ∧ (apiFetch env store url o now).res =
        (attempt env url o (readCache store url) store (o.maxRetries - j)
          (some (errMsgOf e))).res
    ∧ (apiFetch env store url o now).store =
        (attempt env url o (readCache store url) store (o.maxRetries - j)
          (some (errMsgOf e))).store := by
  have hstep : attemptStep o.parse (env.net j) = StepResult.failed (errMsgOf e) := by
    rw [hnet]
    simp [attemptStep, hok, hdec]
  have hskip := attempt_skipToFail env url o (readCache store url) store j hj hpre
    (errMsgOf e) hstep (o.maxRetries + 1) none (le_refl _) (by omega)
  refine ⟨hstep, ?_, ?_, ?_⟩
  · intro last
    simp only [attempt]
    have hidx : o.maxRetries - (o.maxRetries - j) = j := Nat.sub_sub_self hj
    rw [hidx]
    simp only [hstep]
  · rw [apiFetch_miss env store url o now hmiss]
    exact hskip.1
  · rw [apiFetch_miss env store url o now hmiss]
    exact hskip.2

theorem c5_decode_failure_retries_witness :
    attemptStep ParseMode.json
      ((⟨fun i => if i = 0 then JsResult.err ⟨"AbortError", "t"⟩
          else JsResult.ok ⟨true, 200, "OK", none,
            JsResult.err ⟨"SyntaxError", "bad json"⟩, JsResult.ok ""⟩,
          fun _ => 0, true⟩ : Env).net 1) = StepResult.failed "bad json"
    ∧ (apiFetch ⟨fun i => if i = 0 then JsResult.err ⟨"AbortError", "t"⟩
          else JsResult.ok ⟨true, 200, "OK", none,
            JsResult.err ⟨"SyntaxError", "bad json"⟩, JsResult.ok ""⟩,
          fun _ => 0, true⟩ [] "u"
        ⟨300000, 10000, 1, ParseMode.json⟩ 0).res =
      ⟨none, some "bad json", false⟩ := by
  have h := c5_decode_failure_retries
    ⟨fun i => if i = 0 then JsResult.err ⟨"AbortError", "t"⟩
      else JsResult.ok ⟨true, 200, "OK", none,
        JsResult.err ⟨"SyntaxError", "bad json"⟩, JsResult.ok ""⟩,
      fun _ => 0, true⟩ [] "u" ⟨300000, 10000, 1, ParseMode.json⟩ 0 1
    ⟨true, 200, "OK", none, JsResult.err ⟨"SyntaxError", "bad json"⟩, JsResult.ok ""⟩
    ⟨"SyntaxError", "bad json"⟩ (fun _ hc => nomatch hc) (by decide)
    (fun i hi => by
      have h0 : i = 0 := by omega
      subst h0
      exact ⟨"Request timed out", rfl⟩)
    rfl rfl rfl
  exact ⟨h.1, h.2.2.1.trans (by decide)⟩

/-- Claim C6: after every call exactly one of the three shapes holds
(data present and not stale, data present and stale, data absent), the
error is present whenever data is absent, and the error can be present
alongside stale data. -/
theorem c6_result_shape_invariant :
    (∀ (env : Env) (store : Store) (url : String) (o : Options) (now : Nat),
        exactlyOneShape (apiFetch env store url o now).res
        ∧ ((apiFetch env store url o now).res.data = none →
            (apiFetch env store url o now).res.error ≠ none))
    ∧ ∃ (env : Env) (store : Store) (url : String) (o : Options) (now : Nat),
        (apiFetch env store url o now).res.data.isSome = true
        ∧ (apiFetch env store url o now).res.stale = true
        ∧ (apiFetch env store url o now).res.error ≠ none := by
  constructor
  · intro env store url o now
    refine ⟨shape_tauto _, ?_⟩
    unfold apiFetch
    cases hc : readCache store url with
    | none =>
        exact attempt_error_of_none env url o none store (o.maxRetries + 1) none
          (Or.inr (by omega))
    | some c =>
        dsimp only
        by_cases hfresh : (now : Int) - (c.cachedAt : Int) < (c.ttl : Int)
        · rw [if_pos hfresh]
          intro h
          simp at h
        · rw [if_neg hfresh]
          exact attempt_error_of_none env url o (some c) store (o.maxRetries + 1) none
            (Or.inr (by omega))
  · refine ⟨⟨fun _ => JsResult.err ⟨"TypeError", "boom"⟩, fun _ => 0, true⟩,
      [("dashboard_cache_u", RawRecord.entry ⟨"p", 0, 5⟩)], "u",
      ⟨300000, 10000, 0, ParseMode.json⟩, 10, ?_, ?_, ?_⟩ <;> decide

theorem c6_result_shape_invariant_witness :
    (apiFetch ⟨fun _ => JsResult.err ⟨"TypeError", "boom"⟩, fun _ => 0, true⟩ [] "u"
        ⟨300000, 10000, 0, ParseMode.json⟩ 0).res.error ≠ none :=
  (c6_result_shape_invariant.1 _ [] "u" ⟨300000, 10000, 0, ParseMode.json⟩ 0).2 rfl

/-- Claim C7: readCache treats a corrupt record as absent, writeCache
swallows a persistence failure leaving the store as it was, and a run
whose every network call throws still returns normally with the thrown
error of the final attempt encoded in the error field of the result. -/
theorem c7_no_escape :
    (∀ (store : Store) (key raw : String),
        lookupStore store (cacheKeyOf key) = some (RawRecord.corrupt raw) →
        readCache store key = none)
    ∧ (∀ (store : Store) (key : String) (d : Payload) (ttl t : Nat),
        writeCache store key d ttl t false = store)
    ∧ (∀ (env : Env) (store : Store) (url : String) (o : Options) (now : Nat),
        cacheMiss store url now → (∀ i, ∃ e, env.net i = JsResult.err e) →
        ∀ e, env.net o.maxRetries = JsResult.err e →
          (apiFetch env store url o now).res.error = some (errMsgOf e)) := by
  refine ⟨?_, ?_, ?_⟩
  · intro store key raw h
    unfold readCache
    rw [h]
  · intro store key d ttl t
    rfl
  · intro env store url o now hmiss hall e he
    have hfail : ∀ i, i ≤ o.maxRetries → failsAt o env i := by
      intro i _
      obtain ⟨ei, hei⟩ := hall i
      exact ⟨errMsgOf ei, by rw [hei]; rfl⟩
    obtain ⟨h1, h2⟩ := apiFetch_allFail env store url o now hmiss hfail
    cases hc : readCache store url with
    | some c => rw [h1 c hc]; simp [he, attemptStep, failedMsgOf]
    | none => rw [h2 hc]; simp [he, attemptStep, failedMsgOf]

theorem c7_no_escape_witness :
    readCache [("dashboard_cache_u", RawRecord.corrupt "not json")] "u" = none
    ∧ writeCache [] "u" "d" 5 0 false = []
    ∧ (apiFetch ⟨fun _ => JsResult.err ⟨"AbortError", "x"⟩, fun _ => 0, true⟩ [] "u"
        ⟨300000, 10000, 1, ParseMode.json⟩ 0).res.error = some "Request timed out" :=
  ⟨c7_no_escape.1 [("dashboard_cache_u", RawRecord.corrupt "not json")] "u"
     "not json" rfl,
   c7_no_escape.2.1 [] "u" "d" 5 0,
   c7_no_escape.2.2 ⟨fun _ => JsResult.err ⟨"AbortError", "x"⟩, fun _ => 0, true⟩
     [] "u" ⟨300000, 10000, 1, ParseMode.json⟩ 0
     (fun _ hc => nomatch hc) (fun _ => ⟨⟨"AbortError", "x"⟩, rfl⟩)
     ⟨"AbortError", "x"⟩ rfl⟩

/-- Claim C8: the cache is written only in the success branch of an
attempt: a fresh-cache fast-path return and a run whose every attempt
fails both leave the store unchanged for every key. -/
theorem c8_cache_write_frame (env : Env) (store : Store) (url : String) (o : Options)
    (now : Nat) :
    (∀ c, readCache store url = some c →
        (now : Int) - (c.cachedAt : Int) < (c.ttl : Int) →
        (apiFetch env store url o now).store = store)
    ∧ (cacheMiss store url now → (∀ i, i ≤ o.maxRetries → failsAt o env i) →
        (apiFetch env store url o now).store = store) := by
  constructor
  · intro c hc hfresh
    rw [apiFetch_freshHit env store url o now c hc hfresh]
  · intro hmiss hfail
    rw [apiFetch_miss env store url o now hmiss,
      attempt_allFail env url o (readCache store url) store (o.maxRetries + 1) none
        (le_refl _) (fun i _ h2 => hfail i h2)]

theorem c8_cache_write_frame_witness :
    (apiFetch ⟨fun _ => JsResult.err ⟨"TypeError", "boom"⟩, fun _ => 0, true⟩
        [("dashboard_cache_u", RawRecord.entry ⟨"p", 0, 5⟩)] "u"
        ⟨300000, 10000, 2, ParseMode.json⟩ 10).store =
      [("dashboard_cache_u", RawRecord.entry ⟨"p", 0, 5⟩)] :=
  (c8_cache_write_frame ⟨fun _ => JsResult.err ⟨"TypeError", "boom"⟩, fun _ => 0, true⟩
      [("dashboard_cache_u", RawRecord.entry ⟨"p", 0, 5⟩)] "u"
      ⟨300000, 10000, 2, ParseMode.json⟩ 10).2
    (fun c hc => by
      have h : CacheEntry.mk "p" 0 5 = c := Option.some.inj hc
      rw [← h]
      decide)
    (fun _ _ => ⟨"boom", rfl⟩)

end ApiClient

namespace Firms

open ApiClient (JsResult JsError)

/-- Claim C9: for every GET request the proxy responds 503 with a
structured error body when the FIRMS API key secret is not configured
(missing or empty), 500 with an error body when the upstream fetch
rejects or the body read throws, the upstream status with an error body
when the upstream call returns non-success, and 200 with the upstream
CSV decoded into an array on success. -/
theorem c9_proxy_status_codes (env : ProxyEnv) (daysP sourceP bboxP : Option String) :
    ((env.firmsApiKey = none ∨ env.firmsApiKey = some "") →
        onRequestGet env daysP sourceP bboxP =
          ⟨503, ProxyBody.errorBody
            "FIRMS_API_KEY environment variable is not configured."⟩)
    ∧ (∀ key, env.firmsApiKey = some key → key ≠ "" →
        (∀ e, env.upstream (buildFirmsUrl key (jsOr sourceP "VIIRS_SNPP_NRT")
              (jsOr bboxP "world") daysP) = JsResult.err e →
            onRequestGet env daysP sourceP bboxP =
              ⟨500, ProxyBody.errorBody ("Proxy error: " ++ e.message)⟩)
        ∧ (∀ up, env.upstream (buildFirmsUrl key (jsOr sourceP "VIIRS_SNPP_NRT")
              (jsOr bboxP "world") daysP) = JsResult.ok up → up.ok = false →
            onRequestGet env daysP sourceP bboxP =
              ⟨up.status, ProxyBody.errorBody
                ("FIRMS upstream error: HTTP " ++ toString up.status)⟩)
        ∧ (∀ up csv, env.upstream (buildFirmsUrl key (jsOr sourceP "VIIRS_SNPP_NRT")
              (jsOr bboxP "world") daysP) = JsResult.ok up → up.ok = true →
            up.textBody = JsResult.ok csv →
            onRequestGet env daysP sourceP bboxP =
              ⟨200, ProxyBody.dataBody (parseCsv csv)⟩)
        ∧ (∀ up e, env.upstream (buildFirmsUrl key (jsOr sourceP "VIIRS_SNPP_NRT")
              (jsOr bboxP "world") daysP) = JsResult.ok up → up.ok = true →
            up.textBody = JsResult.err e →
            onRequestGet env daysP sourceP bboxP =
              ⟨500, ProxyBody.errorBody ("Proxy error: " ++ e.message)⟩)) := by
  constructor
  · intro h
    rcases h with h | h <;> simp [onRequestGet, h]
  · intro key hkey hne
    refine ⟨?_, ?_, ?_, ?_⟩
    · intro e he
      simp [onRequestGet, hkey, hne, he]
    · intro up hu hok
      simp [onRequestGet, hkey, hne, hu, hok]
    · intro up csv hu hok ht
      simp [onRequestGet, hkey, hne, hu, hok, ht]
    · intro up e hu hok ht
      simp [onRequestGet, hkey, hne, hu, hok, ht]

theorem c9_proxy_status_codes_witness :
    onRequestGet ⟨none, fun _ => JsResult.err ⟨"TypeError", "fail"⟩⟩ none none none =
      ⟨503, ProxyBody.errorBody "FIRMS_API_KEY environment variable is not configured."⟩
    ∧ onRequestGet
        ⟨some "KEY", fun _ => JsResult.ok ⟨true, 200, JsResult.ok "lat,lon\n1,2"⟩⟩
        none none none =
      ⟨200, ProxyBody.dataBody (parseCsv "lat,lon\n1,2")⟩ :=
  ⟨(c9_proxy_status_codes ⟨none, fun _ => JsResult.err ⟨"TypeError", "fail"⟩⟩
      none none none).1 (Or.inl rfl),
   ((c9_proxy_status_codes
       ⟨some "KEY", fun _ => JsResult.ok ⟨true, 200, JsResult.ok "lat,lon\n1,2"⟩⟩
       none none none).2 "KEY" rfl (by decide)).2.2.1
     ⟨true, 200, JsResult.ok "lat,lon\n1,2"⟩ "lat,lon\n1,2" rfl rfl rfl⟩

/-- Claim C10: the day-range segment of the upstream FIRMS url is an
integer clamped into 1..10: a missing or non-numeric days parameter
yields 1, a parsed value below 1 is raised to 1, and a parsed value
above 10 is lowered to 10. -/
theorem c10_days_clamped :
    (∀ key source bbox p, buildFirmsUrl key source bbox p =
        firmsBase ++ "/" ++ key ++ "/" ++ source ++ "/" ++ bbox ++ "/"
          ++ toString (daysSegment p))
    ∧ (∀ p, 1 ≤ daysSegment p ∧ daysSegment p ≤ 10)
    ∧ daysSegment none = 1
    ∧ (∀ s, jsParseInt s = none → daysSegment (some s) = 1)
    ∧ (∀ s n, jsParseInt s = some n → n < 1 → daysSegment (some s) = 1)
    ∧ (∀ s n, jsParseInt s = some n → 10 < n → daysSegment (some s) = 10) := by
  refine ⟨fun _ _ _ _ => rfl, ?_, by decide, ?_, ?_, ?_⟩
  · intro p
    unfold daysSegment
    exact ⟨le_min (by norm_num) (le_max_left 1 _), min_le_left _ _⟩
  · intro s hs
    by_cases h0 : s = ""
    · subst h0
      decide
    · simp only [daysSegment, jsOr, if_neg h0, hs]
      decide
  · intro s n hs hn
    by_cases h0 : s = ""
    · subst h0
      simp [show jsParseInt "" = none from rfl] at hs
    · simp only [daysSegment, jsOr, if_neg h0, hs]
      by_cases hn0 : n = 0
      · subst hn0
        decide
      · simp only [if_neg hn0]
        rw [max_eq_left (by omega : n ≤ 1)]
        decide
  · intro s n hs hn
    by_cases h0 : s = ""
    · subst h0
      simp [show jsParseInt "" = none from rfl] at hs
    · simp only [daysSegment, jsOr, if_neg h0, hs]
      have hn0 : ¬(n = 0) := by omega
      simp only [if_neg hn0]
      rw [max_eq_right (by omega : (1 : Int) ≤ n), min_eq_left (by omega : (10 : Int) ≤ n)]

theorem c10_days_clamped_witness :
    daysSegment (some "xyz") = 1 ∧ daysSegment (some "-3") = 1
    ∧ daysSegment (some "99") = 10 :=
  ⟨c10_days_clamped.2.2.2.1 "xyz" (by decide),
   c10_days_clamped.2.2.2.2.1 "-3" (-3) (by decide) (by decide),
   c10_days_clamped.2.2.2.2.2 "99" 99 (by decide) (by decide)⟩

end Firms
